import Mathlib

/-!
Verification of the functional-redis protocol engine (src/library/client.js,
src/library/RedisRequest.js, src/library/RedisResponse.js) against its
natural-language specification.

Byte strings are modelled as `List Nat` (each element a byte value, the
code-unit view of a JavaScript Uint8Array).  Fallible JavaScript code
(a thrown TypeError, a read past end of stream) is modelled with `Option`.
External collaborators that are not part of this repository (the
functional and functional_io libraries, the Deno socket) are modelled
from the specification; each such definition carries a doc comment that
starts with the words Modelled from the spec.
-/

/- ASCII byte values used throughout: CR 13, LF 10, and the RESP sigils
   plus 43, minus 45, colon 58, dollar 36, star 42. -/

def CHARACTER_CODE_CL : Nat := 13

def CHARACTER_CODE_RF : Nat := 10

/-- Arguments of a Redis request: either a textual argument (carried as its
UTF-8 bytes, exactly the bytes that encodeText would produce for it) or the
reserved placeholder token $$rawPlaceholder from src/library/Symbol.js. -/
inductive RedisArg where
  | text (bytes : List Nat)
  | placeholder
deriving DecidableEq, Repr

/-- src/library/RedisRequest.js line 22: factorizeType with fields
command, raw (the opaque binary payload) and arguments.  The command is
carried as its bytes (ASCII for every real command). -/
structure RedisRequest where
  command : List Nat
  raw : List Nat
  arguments : List RedisArg
deriving DecidableEq, Repr

/-- src/library/RedisResponse.js lines 30-36: a sum type with the two
variants Failure and Success, each holding the raw reply bytes. -/
inductive RedisResponse where
  | Failure (raw : List Nat)
  | Success (raw : List Nat)
deriving DecidableEq, Repr

/-- Accessor for the raw field shared by both variants of RedisResponse. -/
def RedisResponse.rawOf : RedisResponse → List Nat
  | .Failure raw => raw
  | .Success raw => raw

/-- Discriminator: true on the Failure variant. -/
def RedisResponse.isFailure : RedisResponse → Bool
  | .Failure _ => true
  | .Success _ => false

/-- Decimal digits helper: fuel-indexed loop so that it reduces by decide.
natDigitsGo fuel n acc prepends the decimal digits of n (as ASCII bytes)
to acc; fuel bounds the number of steps. -/
def natDigitsGo : Nat → Nat → List Nat → List Nat
  | 0, _, acc => acc
  | Nat.succ fuel, n, acc =>
      if n = 0 then acc else natDigitsGo fuel (n / 10) ((n % 10 + 48) :: acc)

/-- The ASCII bytes of the decimal notation of a natural number, exactly the
bytes JavaScript template interpolation produces for a non-negative
integer. -/
def natBytesDigits (n : Nat) : List Nat :=
  if n = 0 then [48] else natDigitsGo (n + 1) n []

/-- The ASCII bytes of the decimal notation of an integer, exactly the bytes
JavaScript String(number) produces for an integral number: an optional
leading minus sign (byte 45) followed by the decimal digits. -/
def intBytes : Int → List Nat
  | Int.ofNat n => natBytesDigits n
  | Int.negSucc n => 45 :: natBytesDigits (n + 1)

/- ===================== RedisResponse.concat (C10) ===================== -/

/-- src/library/RedisResponse.js lines 70-73: concat builds
RedisResponse.Success of the byte-wise concatenation of both raw buffers,
whatever the variants of the operands are. -/
def RedisResponse.concat (a b : RedisResponse) : RedisResponse :=
  RedisResponse.Success (a.rawOf ++ b.rawOf)

/- ===================== RedisRequest.lte (C8) ===================== -/

/-- The value threaded through the JavaScript reduce of RedisRequest.lte:
it starts as the other payload (a Uint8Array) and the callback may replace
it with the boolean true or keep it. -/
inductive JSAcc where
  | arr (l : List Nat)
  | bool (b : Bool)
deriving DecidableEq, Repr

/-- JavaScript truthiness of the reduce accumulator: every object is truthy,
in particular every Uint8Array including the empty one; a boolean is its
own truth value. -/
def jsTruthy : JSAcc → Bool
  | .arr _ => true
  | .bool b => b

/-- JavaScript indexing of the reduce accumulator: indexing a Uint8Array
out of range or indexing a boolean yields undefined, modelled as none. -/
def jsIndex : JSAcc → Nat → Option Nat
  | .arr l, i => l[i]?
  | .bool _, _ => none

/-- JavaScript comparison x > value where x may be undefined: a comparison
against undefined is false. -/
def jsGtUndefined : Option Nat → Nat → Bool
  | some a, v => decide (v < a)
  | none, _ => false

/-- One step of the reduce in src/library/RedisRequest.js lines 126-133:
the callback is fun acc value index, returning acc when acc is falsy and
acc index is greater than value, and true otherwise. -/
def lteReduceStep (acc : JSAcc) (index value : Nat) : JSAcc :=
  if !(jsTruthy acc) && jsGtUndefined (jsIndex acc index) value then acc
  else JSAcc.bool true

/-- src/library/RedisRequest.js lines 126-133: lte is the conjunction of a
byte-length comparison with the double negation of the reduce over the
receiver's payload, seeded with the other payload. -/
def RedisRequest.lte (a b : RedisRequest) : Bool :=
  decide (a.raw.length ≤ b.raw.length)
    && jsTruthy
      (a.raw.enum.foldl (fun acc p => lteReduceStep acc p.1 p.2) (JSAcc.arr b.raw))

theorem lteReduce_truthy (l : List (Nat × Nat)) (acc : JSAcc)
    (h : jsTruthy acc = true) :
    jsTruthy (l.foldl (fun acc p => lteReduceStep acc p.1 p.2) acc) = true := by
  induction l generalizing acc with
  | nil => exact h
  | cons p rest ih =>
      simp only [List.foldl_cons]
      apply ih
      unfold lteReduceStep
      rw [h]
      simp [jsTruthy]

/-- The reduce always yields a truthy value (its seed, a Uint8Array object,
is truthy, and the callback can only ever return true afterwards), so lte
collapses to the byte-length comparison alone. -/
theorem lte_eq_length_le (a b : RedisRequest) :
    RedisRequest.lte a b = decide (a.raw.length ≤ b.raw.length) := by
  unfold RedisRequest.lte
  rw [lteReduce_truthy a.raw.enum (JSAcc.arr b.raw) rfl, Bool.and_true]

/- ============== RedisRequest.expireat / pexpireat (C7) ============== -/

/-- The timestamp input of expireat and pexpireat: either a JavaScript Date
(whose valueOf method yields its UNIX timestamp in integer milliseconds)
or a number passed through unchanged. -/
inductive RedisTimestamp where
  | date (valueOf : Int)
  | num (value : Int)
deriving DecidableEq, Repr

/-- src/library/RedisRequest.js lines 641-648: expireat normalizes a Date to
String of timestamp.valueOf(), a number to String of itself, and places it
after the key. -/
def RedisRequest.expireat (timestamp : RedisTimestamp) (key : List Nat) : RedisRequest :=
  RedisRequest.mk [69, 88, 80, 73, 82, 69, 65, 84] []
    [ RedisArg.text key,
      RedisArg.text
        (match timestamp with
         | .date v => intBytes v
         | .num n => intBytes n) ]

/-- src/library/RedisRequest.js lines 753-760: pexpireat normalizes a Date
to String of timestamp.valueOf() * 1000, a number to String of itself. -/
def RedisRequest.pexpireat (timestamp : RedisTimestamp) (key : List Nat) : RedisRequest :=
  RedisRequest.mk [80, 69, 88, 80, 73, 82, 69, 65, 84] []
    [ RedisArg.text key,
      RedisArg.text
        (match timestamp with
         | .date v => intBytes (v * 1000)
         | .num n => intBytes n) ]

/- ===================== RedisRequest.invert (C9) ===================== -/

/-- src/library/RedisRequest.js lines 135-138: the value invert returns,
built from the reversed payload. -/
def RedisRequest.invert (r : RedisRequest) : RedisRequest :=
  RedisRequest.mk r.command r.raw.reverse r.arguments

/-- src/library/RedisRequest.js lines 135-138: the state of the receiver
after invert returns.  The call this.raw.reverse() is the in-place
Uint8Array.prototype.reverse, so the receiver's own payload buffer is
reversed (and shared with the returned request). -/
def invertReceiverAfter (r : RedisRequest) : RedisRequest :=
  RedisRequest.mk r.command r.raw.reverse r.arguments

/-- src/library/RedisRequest.js lines 99-102: concat allocates a fresh
Uint8Array for the result, leaving the receiver's payload untouched; the
state of the receiver after the call is the receiver itself. -/
def concatReceiverAfter (r _other : RedisRequest) : RedisRequest := r

/-- src/library/RedisRequest.js lines 99-102: the value concat returns. -/
def RedisRequest.concat (a b : RedisRequest) : RedisRequest :=
  RedisRequest.mk a.command (a.raw ++ b.raw) a.arguments

/- ===================== encodeRedisRequest (C1, C2) ===================== -/

/-- Modelled from the spec: splitCLRF of the external functional_io
utilities, the segment splitter the encoder applies to the payload.  It
cuts the byte list after every CRLF pair, each chunk keeping its CRLF;
the final chunk is emitted only when non-empty, so a trailing CRLF yields
no trailing empty segment (the quirk recorded in the spec, section 9). -/
def splitCLRFGo (buffer : List Nat) : List Nat → List (List Nat)
  | [] => if buffer = [] then [] else [buffer.reverse]
  | 13 :: 10 :: rest => (buffer.reverse ++ [13, 10]) :: splitCLRFGo [] rest
  | b :: rest => splitCLRFGo (b :: buffer) rest

/-- Modelled from the spec: splitCLRF splits a byte buffer into its
CRLF-terminated chunks. -/
def splitCLRF (l : List Nat) : List (List Nat) := splitCLRFGo [] l

/-- Modelled from the spec: trimCRLF of the external functional_io
utilities removes the trailing CRLF of a chunk when present. -/
def trimCRLF (l : List Nat) : List Nat :=
  if l.reverse.take 2 = [10, 13] then l.take (l.length - 2) else l

/-- The bulk encoding of a byte string s: a dollar sign, the decimal byte
length, CRLF, the bytes of s, CRLF. -/
def bulkBytes (s : List Nat) : List Nat :=
  (36 :: natBytesDigits s.length) ++ [13, 10] ++ s ++ [13, 10]

/-- One step of the reduce in src/library/client.js lines 188-213: the
accumulator is the Pair of the bytes emitted so far and the payload
segments not yet consumed.  A placeholder argument consumes the first
remaining segment and emits its bulk encoding; with no segment left the
JavaScript dereference of undefined throws, modelled as none.  A textual
argument emits its own bulk encoding and leaves the segments alone. -/
def encodeRedisRequestStep (acc : List Nat × List (List Nat)) (value : RedisArg) :
    Option (List Nat × List (List Nat)) :=
  match value with
  | RedisArg.placeholder =>
      match acc.2 with
      | [] => none
      | segment :: rest =>
          some (acc.1 ++ (36 :: natBytesDigits segment.length) ++ [13, 10]
                  ++ segment ++ [13, 10],
                rest)
  | RedisArg.text s =>
      some (acc.1 ++ (36 :: natBytesDigits s.length) ++ [13, 10] ++ s ++ [13, 10],
            acc.2)

/-- The reduce of src/library/client.js lines 188-236 over the argument
list, threading the Pair accumulator and propagating the failure of a
placeholder without a segment. -/
def encodeRedisRequestFold (acc : List Nat × List (List Nat)) :
    List RedisArg → Option (List Nat × List (List Nat))
  | [] => some acc
  | value :: rest =>
      match encodeRedisRequestStep acc value with
      | none => none
      | some acc' => encodeRedisRequestFold acc' rest

/-- src/library/client.js lines 219-227: the initial first component of the
Pair, the RESP array header star, 1 + argument count, CRLF, followed by
the bulk of the command (the dollar sign with the command length).  The
source interpolates the JavaScript string length of the command, which
for the ASCII commands of this library is its byte count. -/
def requestHeader (r : RedisRequest) : List Nat :=
  (42 :: natBytesDigits (1 + r.arguments.length)) ++ [13, 10]
    ++ (36 :: natBytesDigits r.command.length) ++ [13, 10] ++ r.command ++ [13, 10]

/-- src/library/client.js lines 185-238: encodeRedisRequest reduces the
argument list starting from the Pair of the header bytes and the
CRLF-separated, CRLF-trimmed segments of the payload, and keeps the first
component.  none models the TypeError thrown when a placeholder finds no
remaining segment. -/
def encodeRedisRequest (r : RedisRequest) : Option (List Nat) :=
  (encodeRedisRequestFold (requestHeader r, (splitCLRF r.raw).map trimCRLF)
      r.arguments).map Prod.fst

/-- The number of placeholder tokens in an argument list. -/
def countPlaceholders : List RedisArg → Nat
  | [] => 0
  | RedisArg.placeholder :: rest => countPlaceholders rest + 1
  | RedisArg.text _ :: rest => countPlaceholders rest

/-- The argument list with each placeholder replaced, in left-to-right
order, by the next unconsumed segment. -/
def substituteArgs : List RedisArg → List (List Nat) → List RedisArg
  | [], _ => []
  | RedisArg.text s :: rest, segments => RedisArg.text s :: substituteArgs rest segments
  | RedisArg.placeholder :: rest, segment :: segments =>
      RedisArg.text segment :: substituteArgs rest segments
  | RedisArg.placeholder :: rest, [] => RedisArg.placeholder :: substituteArgs rest []

theorem substituteArgs_length (args : List RedisArg) (segments : List (List Nat)) :
    (substituteArgs args segments).length = args.length := by
  induction args generalizing segments with
  | nil => rfl
  | cons a rest ih =>
      cases a with
      | text s => simpa [substituteArgs] using ih segments
      | placeholder =>
          cases segments with
          | nil => simpa [substituteArgs] using ih []
          | cons seg segs => simpa [substituteArgs] using ih segs

theorem encodeRedisRequestFold_texts (l : List (List Nat)) (first : List Nat)
    (second : List (List Nat)) :
    encodeRedisRequestFold (first, second) (l.map RedisArg.text)
      = some (first ++ (l.map bulkBytes).flatten, second) := by
  induction l generalizing first with
  | nil => simp [encodeRedisRequestFold]
  | cons s rest ih =>
      simp only [List.map_cons, encodeRedisRequestFold, encodeRedisRequestStep]
      rw [ih]
      simp [bulkBytes]

theorem encodeRedisRequestFold_substitute (args : List RedisArg)
    (segments : List (List Nat)) (first : List Nat) (second : List (List Nat))
    (h : countPlaceholders args ≤ segments.length) :
    (encodeRedisRequestFold (first, segments) args).map Prod.fst
      = (encodeRedisRequestFold (first, second) (substituteArgs args segments)).map
          Prod.fst := by
  induction args generalizing segments first with
  | nil => rfl
  | cons a rest ih =>
      cases a with
      | text s =>
          simp only [substituteArgs, encodeRedisRequestFold, encodeRedisRequestStep]
          exact ih segments _ (by simpa [countPlaceholders] using h)
      | placeholder =>
          cases segments with
          | nil => simp [countPlaceholders] at h
          | cons seg segs =>
              simp only [substituteArgs, encodeRedisRequestFold, encodeRedisRequestStep]
              exact ih segs _ (by simpa [countPlaceholders] using Nat.le_of_succ_le_succ h)

/- ======================= theorems for C7-C10 ======================= -/

/-- Claim C10: for every pair of RedisResponses, whatever the variants of
the operands, concat yields a Success whose raw bytes are the byte-wise
concatenation of the raw bytes of the operands; in particular the concat
of two Failures is a Success. -/
theorem redisResponse_concat_always_success (a b : RedisResponse) :
    (RedisResponse.concat a b).isFailure = false
      ∧ (RedisResponse.concat a b).rawOf = a.rawOf ++ b.rawOf := by
  constructor <;> rfl

/-- Claim C8, counterexample: lte compares payload byte lengths only, so two
requests with distinct one-byte payloads satisfy lte in both directions
while their payloads differ byte-wise, refuting antisymmetry up to payload
equality as the claim states it. -/
theorem lte_antisymmetry_counterexample :
    RedisRequest.lte (RedisRequest.mk [] [0] []) (RedisRequest.mk [] [1] []) = true
      ∧ RedisRequest.lte (RedisRequest.mk [] [1] []) (RedisRequest.mk [] [0] []) = true
      ∧ (RedisRequest.mk [] [0] [] : RedisRequest).raw
          ≠ (RedisRequest.mk [] [1] [] : RedisRequest).raw := by
  refine ⟨by decide, by decide, by decide⟩

/-- Claim C8 as amended: lte is total, and antisymmetric only up to payload
byte length: lte holding in both directions forces the payload lengths,
not the payload bytes, to agree (lte compares lengths only). -/
theorem lte_total_and_antisym_up_to_length (a b : RedisRequest) :
    (RedisRequest.lte a b = true ∨ RedisRequest.lte b a = true)
      ∧ (RedisRequest.lte a b = true → RedisRequest.lte b a = true →
          a.raw.length = b.raw.length) := by
  constructor
  · rw [lte_eq_length_le, lte_eq_length_le]
    rcases Nat.le_total a.raw.length b.raw.length with h | h
    · exact Or.inl (by simpa using h)
    · exact Or.inr (by simpa using h)
  · intro hab hba
    rw [lte_eq_length_le] at hab hba
    exact Nat.le_antisymm (by simpa using hab) (by simpa using hba)

/-- Witness for the amended C8 theorem at two concrete requests. -/
theorem lte_total_and_antisym_up_to_length_witness :
    (RedisRequest.lte (RedisRequest.mk [] [0] []) (RedisRequest.mk [] [1] []) = true
        ∨ RedisRequest.lte (RedisRequest.mk [] [1] []) (RedisRequest.mk [] [0] []) = true)
      ∧ (RedisRequest.mk [] [0] [] : RedisRequest).raw.length
          = (RedisRequest.mk [] [1] [] : RedisRequest).raw.length :=
  ⟨(lte_total_and_antisym_up_to_length (RedisRequest.mk [] [0] []) (RedisRequest.mk [] [1] [])).1,
   (lte_total_and_antisym_up_to_length (RedisRequest.mk [] [0] []) (RedisRequest.mk [] [1] [])).2
     (by decide) (by decide)⟩

/-- Claim C7, counterexample: for the Date whose valueOf is 2000 (the UNIX
time 2.000 seconds, in milliseconds as JavaScript Dates carry it), expireat
places the bytes of 2000 in the timestamp slot, not the bytes of the
integer number of seconds 2 that the claim requires. -/
theorem expireat_counterexample :
    (RedisRequest.expireat (RedisTimestamp.date 2000) [104, 111, 103, 101]).arguments
        = [RedisArg.text [104, 111, 103, 101], RedisArg.text (intBytes 2000)]
      ∧ intBytes 2000 ≠ intBytes 2 := by
  refine ⟨by decide, by decide⟩

/-- Claim C7 as amended: given a date/time value, expireat places the raw
valueOf of the date, the integer number of milliseconds of the UNIX
timestamp; pexpireat places valueOf times 1000, the integer number of
microseconds. -/
theorem expireat_pexpireat_timestamp (v : Int) (key : List Nat) :
    (RedisRequest.expireat (RedisTimestamp.date v) key).arguments
        = [RedisArg.text key, RedisArg.text (intBytes v)]
      ∧ (RedisRequest.pexpireat (RedisTimestamp.date v) key).arguments
        = [RedisArg.text key, RedisArg.text (intBytes (v * 1000))] := by
  constructor <;> rfl

/-- Claim C9: the code violates the immutability claim.  Calling invert on
a request whose payload is the bytes 1, 2 leaves the receiver holding the
reversed payload 2, 1 (Uint8Array.prototype.reverse mutates in place), so
the receiver does not keep its payload bytes unchanged. -/
theorem invert_mutates_receiver :
    invertReceiverAfter (RedisRequest.mk [71, 69, 84] [1, 2] [])
        = RedisRequest.mk [71, 69, 84] [2, 1] []
      ∧ invertReceiverAfter (RedisRequest.mk [71, 69, 84] [1, 2] [])
        ≠ RedisRequest.mk [71, 69, 84] [1, 2] [] := by
  refine ⟨by decide, by decide⟩

/-- Claim C1: for a request with a non-empty ASCII command, payload empty
and k textual arguments without a placeholder, the encoder emits the RESP
array header star k+1 CRLF followed by the bulk encoding of the command
and then the bulk encodings of the arguments in order. -/
theorem encodeRedisRequest_no_placeholder (command : List Nat)
    (args : List (List Nat)) (hne : command ≠ [])
    (hascii : ∀ b ∈ command, b < 128) :
    encodeRedisRequest (RedisRequest.mk command [] (args.map RedisArg.text))
      = some ((42 :: natBytesDigits (args.length + 1)) ++ [13, 10]
          ++ bulkBytes command ++ (args.map bulkBytes).flatten) := by
  unfold encodeRedisRequest
  rw [show splitCLRF ([] : List Nat) = [] from rfl]
  show (encodeRedisRequestFold (_, ([] : List (List Nat)))
      (args.map RedisArg.text)).map Prod.fst = _
  rw [encodeRedisRequestFold_texts]
  simp [requestHeader, bulkBytes, Nat.add_comm]

/-- Witness for the C1 theorem: the spec scenario SET hoge piyo, whose
encoding is the byte string star 3, bulk SET, bulk hoge, bulk piyo. -/
theorem encodeRedisRequest_no_placeholder_witness :
    (([83, 69, 84] : List Nat) ≠ []
        ∧ ∀ b ∈ ([83, 69, 84] : List Nat), b < 128)
      ∧ encodeRedisRequest
          (RedisRequest.mk [83, 69, 84] []
            ([[104, 111, 103, 101], [112, 105, 121, 111]].map RedisArg.text))
        = some ((42 :: natBytesDigits (2 + 1)) ++ [13, 10]
            ++ bulkBytes [83, 69, 84]
            ++ ([[104, 111, 103, 101], [112, 105, 121, 111]].map bulkBytes).flatten) :=
  ⟨⟨by decide, by decide⟩,
   encodeRedisRequest_no_placeholder [83, 69, 84]
     [[104, 111, 103, 101], [112, 105, 121, 111]] (by decide) (by decide)⟩

/-- Claim C2: when the arguments hold exactly as many placeholder tokens as
the payload has CRLF-separated segments, encoding the request equals
encoding the placeholder-free request whose arguments have each
placeholder replaced, left to right, by the corresponding segment. -/
theorem encodeRedisRequest_placeholder_substitution (command payload : List Nat)
    (args : List RedisArg)
    (h : countPlaceholders args = ((splitCLRF payload).map trimCRLF).length) :
    encodeRedisRequest (RedisRequest.mk command payload args)
      = encodeRedisRequest (RedisRequest.mk command []
          (substituteArgs args ((splitCLRF payload).map trimCRLF))) := by
  unfold encodeRedisRequest
  rw [show splitCLRF ([] : List Nat) = [] from rfl]
  have hdr : requestHeader (RedisRequest.mk command payload args)
      = requestHeader (RedisRequest.mk command []
          (substituteArgs args ((splitCLRF payload).map trimCRLF))) := by
    simp [requestHeader, substituteArgs_length]
  rw [hdr]
  exact encodeRedisRequestFold_substitute args
    ((splitCLRF payload).map trimCRLF) _ _ (Nat.le_of_eq h)

/-- Witness for the C2 theorem: the spec scenario MSET with the two-segment
payload piyo CRLF fuga and two placeholders. -/
theorem encodeRedisRequest_placeholder_substitution_witness :
    countPlaceholders
        [RedisArg.text [104, 111, 103, 101], RedisArg.placeholder,
         RedisArg.text [104, 111, 103, 101, 102, 117, 103, 97], RedisArg.placeholder]
        = ((splitCLRF [112, 105, 121, 111, 13, 10, 102, 117, 103, 97]).map
            trimCRLF).length
      ∧ encodeRedisRequest
          (RedisRequest.mk [77, 83, 69, 84]
            [112, 105, 121, 111, 13, 10, 102, 117, 103, 97]
            [RedisArg.text [104, 111, 103, 101], RedisArg.placeholder,
             RedisArg.text [104, 111, 103, 101, 102, 117, 103, 97],
             RedisArg.placeholder])
        = encodeRedisRequest
            (RedisRequest.mk [77, 83, 69, 84] []
              (substituteArgs
                [RedisArg.text [104, 111, 103, 101], RedisArg.placeholder,
                 RedisArg.text [104, 111, 103, 101, 102, 117, 103, 97],
                 RedisArg.placeholder]
                ((splitCLRF [112, 105, 121, 111, 13, 10, 102, 117, 103, 97]).map
                  trimCRLF))) :=
  ⟨by decide,
   encodeRedisRequest_placeholder_substitution [77, 83, 69, 84]
     [112, 105, 121, 111, 13, 10, 102, 117, 103, 97]
     [RedisArg.text [104, 111, 103, 101], RedisArg.placeholder,
      RedisArg.text [104, 111, 103, 101, 102, 117, 103, 97], RedisArg.placeholder]
     (by decide)⟩

/- ============ the streaming reply reader (C3, C4) ============ -/

/-- Modelled from the spec: readLine of the external functional_io fs
module, the read_line_until_crlf primitive of the connection interface.
It consumes the stream up to and including the first CRLF pair and
returns the line (CRLF included) together with the rest of the stream;
none models the I/O error on a stream that holds no complete line. -/
def readLine : List Nat → Option (List Nat × List Nat)
  | [] => none
  | 13 :: 10 :: rest => some ([13, 10], rest)
  | b :: rest =>
      match readLine rest with
      | none => none
      | some (ln, remaining) => some (b :: ln, remaining)

/-- Modelled from the spec: readNBytes of the external functional_io fs
module, the read_exact primitive of the connection interface.  It returns
exactly n bytes or fails. -/
def readNBytes (n : Nat) (s : List Nat) : Option (List Nat × List Nat) :=
  if n ≤ s.length then some (s.take n, s.drop n) else none

/-- The digits of a decimal run, accumulated left to right; none when a
byte outside 48-57 appears. -/
def decimalDigitsGo (acc : Nat) : List Nat → Option Nat
  | [] => some acc
  | d :: rest =>
      if 48 ≤ d ∧ d ≤ 57 then decimalDigitsGo (acc * 10 + (d - 48)) rest
      else none

/-- JavaScript Number() of a non-empty run of minus signs and digits, as the
regular expressions of src/library/client.js lines 338-342 and 391-395
capture it: an optional single leading minus sign followed by at least one
digit parses to the integer; every other shape (and the absent match) is
NaN, modelled as none. -/
def jsNumberOfRun : List Nat → Option Int
  | [] => none
  | 45 :: rest =>
      match rest with
      | [] => none
      | _ => (decimalDigitsGo 0 rest).map (fun n => -(n : Int))
  | l => (decimalDigitsGo 0 l).map (fun n => (n : Int))

/-- The number between the sigil and the terminating CRLF of a header line,
as matched by the regular expressions of src/library/client.js on a line
of the shape sigil, body, CRLF. -/
def lineNumber (ln : List Nat) : Option Int :=
  jsNumberOfRun ((ln.drop 1).dropLast.dropLast)

/- src/library/client.js lines 348-406 (readRedisResponseFragment) and
lines 327-345 (readBulkResponse): given the first line of a reply (CRLF
included) and the rest of the stream, consume the remainder of the reply
and return its raw bytes with the unconsumed stream.

The first argument is recursion fuel for the nested-array loop; every
recursive call strictly decreases it, and the top-level caller passes
more fuel than the stream has bytes, so fuel exhaustion only models the
non-termination of the source on count lines it loops on forever (a
negative or unparseable array count makes the chainRec cursor never reach
the count, so the source reads a finite stream past its end and fails).

Cases, in the order of the source cond:
a line opening with plus, minus or colon, or with dollar directly followed
by minus, is a complete reply by itself; a dollar line with length n at
least 0 reads n + 2 further bytes (payload plus CRLF) and appends them; a
dollar line whose length is negative or NaN passes the resource through
unchanged; a star line with count m at least 0 reads m complete replies
(each through readLine, mirroring readRedisNextLine) and concatenates
their raw bytes after the header line; any other first byte throws. -/
mutual

/-- The dispatch of readRedisResponseFragment on the sigil of the first
line, as described in the block comment above. -/
def readRedisResponseFragment : Nat → List Nat → List Nat → Option (List Nat × List Nat)
  | 0, _, _ => none
  | Nat.succ fuel, ln, rest =>
      match ln.head? with
      | none => none
      | some b =>
          if b = 43 ∨ b = 45 ∨ b = 58 ∨ (b = 36 ∧ ln[1]? = some 45) then
            some (ln, rest)
          else if b = 36 then
            match lineNumber ln with
            | some n =>
                if 0 ≤ n then
                  match readNBytes (n.toNat + 2) rest with
                  | none => none
                  | some (body, rest') => some (ln ++ body, rest')
                else some (ln, rest)
            | none => some (ln, rest)
          else if b = 42 then
            match lineNumber ln with
            | some m =>
                if 0 ≤ m then readArrayElements fuel m.toNat ln rest else none
            | none => none
          else none

/-- The chainRec loop of the array branch: read count further complete
replies, concatenating their raw bytes onto the accumulator. -/
def readArrayElements : Nat → Nat → List Nat → List Nat → Option (List Nat × List Nat)
  | 0, _, _, _ => none
  | Nat.succ _, 0, acc, rest => some (acc, rest)
  | Nat.succ fuel, Nat.succ count, acc, rest =>
      match readLine rest with
      | none => none
      | some (ln, rest') =>
          match readRedisResponseFragment fuel ln rest' with
          | none => none
          | some (raw, rest'') => readArrayElements fuel count (acc ++ raw) rest''

end

/-- src/library/client.js lines 412-440: readRedisResponse reads one line,
completes the reply with readRedisResponseFragment, and classifies the
raw bytes: Failure when the first byte is the error sigil minus, or when
the first byte is the bulk sigil dollar and the second byte is minus;
Success otherwise.  The result is paired with the unconsumed rest of the
stream.  The fuel passed to the fragment reader exceeds the stream
length, so it never runs out on a reply the source would finish. -/
def readRedisResponse (s : List Nat) : Option (RedisResponse × List Nat) :=
  match readLine s with
  | none => none
  | some (ln, rest) =>
      match readRedisResponseFragment (s.length + 1) ln rest with
      | none => none
      | some (raw, rest') =>
          some
            (if raw.head? = some 45 ∨ (raw.head? = some 36 ∧ raw[1]? = some 45)
             then RedisResponse.Failure raw
             else RedisResponse.Success raw,
             rest')

/-- src/library/client.js lines 443-451: readMultipleRedisResponse reads
exactly count replies, in order; the chainRec cursor runs from 0 to count
and nothing else ends the loop.  Modelled from the spec for the list
accumulation of the external chainRec utility: the replies are collected
in read order. -/
def readMultipleRedisResponse : Nat → List Nat → Option (List RedisResponse × List Nat)
  | 0, s => some ([], s)
  | Nat.succ count, s =>
      match readRedisResponse s with
      | none => none
      | some (response, s') =>
          match readMultipleRedisResponse count s' with
          | none => none
          | some (responses, s'') => some (response :: responses, s'')

/-- Modelled from the spec: the borrowed connection handle (the Resource of
the external functional_io library carrying the rid of the Deno socket).
input is the byte stream the server has sent and not yet been consumed;
output is everything written to the socket so far. -/
structure Resource where
  input : List Nat
  output : List Nat
deriving DecidableEq, Repr

/-- src/library/client.js lines 470-479: the reduce of writeRedisPipeline,
applied after reversing the encoded request list; each step prepends the
element followed by one CRLF pair onto the accumulator (both branches of
the conditional produce that shape). -/
def writeRedisPipelineStep (accumulator value : List Nat) : List Nat :=
  if accumulator.length > 0 then value ++ [13, 10] ++ accumulator
  else value ++ [13, 10]

/-- The encoded forms of a request list; none as soon as one encoding
throws. -/
def encodeAllRedisRequests : List RedisRequest → Option (List (List Nat))
  | [] => some []
  | r :: rest =>
      match encodeRedisRequest r, encodeAllRedisRequests rest with
      | some e, some es => some (e :: es)
      | _, _ => none

/-- src/library/client.js lines 462-484: the byte string writeRedisPipeline
sends, namely the reduce of writeRedisPipelineStep over the reversed list
of encoded requests starting from the empty buffer. -/
def writeRedisPipelineBytes (requests : List RedisRequest) : Option (List Nat) :=
  match encodeAllRedisRequests requests with
  | none => none
  | some encoded => some (encoded.reverse.foldl writeRedisPipelineStep [])

/-- src/library/client.js lines 462-484: writeRedisPipeline writes the
pipeline bytes to the connection; the read side of the handle is
untouched. -/
def writeRedisPipeline (requests : List RedisRequest) (resource : Resource) :
    Option Resource :=
  match writeRedisPipelineBytes requests with
  | none => none
  | some bytes => some (Resource.mk resource.input (resource.output ++ bytes))

/-- src/library/client.js lines 543-546: executeRedisCommandPipeline writes
the pipeline and then reads exactly as many replies as there are requests,
the count taken from the request list alone. -/
def executeRedisCommandPipeline (requests : List RedisRequest)
    (resource : Resource) : Option (List RedisResponse × List Nat) :=
  match writeRedisPipeline requests resource with
  | none => none
  | some resource' => readMultipleRedisResponse requests.length resource'.input

/-- The i-th complete reply of a byte stream: iterate readRedisResponse i
times and classify the next reply. -/
def replyAt (s : List Nat) : Nat → Option RedisResponse
  | 0 =>
      match readRedisResponse s with
      | none => none
      | some (response, _) => some response
  | Nat.succ i =>
      match readRedisResponse s with
      | none => none
      | some (_, s') => replyAt s' i

/-- A concrete request used by witnesses: the argument-free PING command. -/
def pingRequest : RedisRequest := RedisRequest.mk [80, 73, 78, 71] [] []

/-- Claim C3: whenever readRedisResponse consumes a complete reply, the
returned RedisResponse is a Failure exactly when the first byte of the
reply is the error sigil minus, or the reply is a bulk string (first byte
dollar) whose second byte is minus; every other complete reply is a
Success. -/
theorem readRedisResponse_failure_iff (s : List Nat) (response : RedisResponse)
    (rest : List Nat) (h : readRedisResponse s = some (response, rest)) :
    response.isFailure = true ↔
      (response.rawOf.head? = some 45
        ∨ (response.rawOf.head? = some 36 ∧ response.rawOf[1]? = some 45)) := by
  unfold readRedisResponse at h
  cases hline : readLine s with
  | none => rw [hline] at h; cases h
  | some p =>
      obtain ⟨ln, rest0⟩ := p
      rw [hline] at h
      dsimp only at h
      cases hfrag : readRedisResponseFragment (s.length + 1) ln rest0 with
      | none => rw [hfrag] at h; cases h
      | some q =>
          obtain ⟨raw, rest1⟩ := q
          rw [hfrag] at h
          simp only [Option.some.injEq, Prod.mk.injEq] at h
          obtain ⟨hresp, hrest⟩ := h
          by_cases hc : raw.head? = some 45 ∨ (raw.head? = some 36 ∧ raw[1]? = some 45)
          · rw [if_pos hc] at hresp
            rw [← hresp]
            exact iff_of_true rfl hc
          · rw [if_neg hc] at hresp
            rw [← hresp]
            exact iff_of_false (by simp [RedisResponse.isFailure]) hc

/-- Witness for the C3 theorem: the null bulk reply dollar minus one CRLF
is read whole and classified Failure. -/
theorem readRedisResponse_failure_iff_witness :
    readRedisResponse [36, 45, 49, 13, 10]
        = some (RedisResponse.Failure [36, 45, 49, 13, 10], [])
      ∧ ((RedisResponse.Failure [36, 45, 49, 13, 10]).isFailure = true ↔
          ((RedisResponse.Failure [36, 45, 49, 13, 10]).rawOf.head? = some 45
            ∨ ((RedisResponse.Failure [36, 45, 49, 13, 10]).rawOf.head? = some 36
                ∧ (RedisResponse.Failure [36, 45, 49, 13, 10]).rawOf[1]? = some 45))) :=
  ⟨by decide,
   readRedisResponse_failure_iff [36, 45, 49, 13, 10]
     (RedisResponse.Failure [36, 45, 49, 13, 10]) [] (by decide)⟩

/-- When readMultipleRedisResponse returns, it returns exactly count
replies and the i-th returned reply is the i-th complete reply of the
stream. -/
theorem readMultipleRedisResponse_spec (count : Nat) (s : List Nat)
    (responses : List RedisResponse) (rest : List Nat)
    (h : readMultipleRedisResponse count s = some (responses, rest)) :
    responses.length = count
      ∧ ∀ i, i < count → responses[i]? = replyAt s i := by
  induction count generalizing s responses rest with
  | zero =>
      simp only [readMultipleRedisResponse, Option.some.injEq, Prod.mk.injEq] at h
      obtain ⟨hresp, _⟩ := h
      rw [← hresp]
      exact ⟨rfl, fun i hi => absurd hi (Nat.not_lt_zero i)⟩
  | succ n ih =>
      unfold readMultipleRedisResponse at h
      cases h1 : readRedisResponse s with
      | none => rw [h1] at h; cases h
      | some p =>
          obtain ⟨response, s'⟩ := p
          rw [h1] at h
          dsimp only at h
          cases h2 : readMultipleRedisResponse n s' with
          | none => rw [h2] at h; cases h
          | some q =>
              obtain ⟨responses', s''⟩ := q
              rw [h2] at h
              simp only [Option.some.injEq, Prod.mk.injEq] at h
              obtain ⟨hresp, hrest⟩ := h
              obtain ⟨hlen, hidx⟩ := ih s' responses' s'' h2
              rw [← hresp]
              refine ⟨by simp [hlen], ?_⟩
              intro i hi
              cases i with
              | zero => simp [replyAt, h1]
              | succ j =>
                  have : responses'[j]? = replyAt s' j :=
                    hidx j (Nat.lt_of_succ_lt_succ hi)
                  simp only [List.getElem?_cons_succ, this, replyAt, h1]

/-- Claim C4: when executeRedisCommandPipeline returns, it returns exactly
as many responses as requests, and the i-th response is the i-th complete
reply read from the connection's stream after the requests are written;
the count comes from the request list alone (readMultipleRedisResponse
recurses on the count and on nothing else). -/
theorem executeRedisCommandPipeline_pairs (requests : List RedisRequest)
    (resource : Resource) (responses : List RedisResponse) (rest : List Nat)
    (h : executeRedisCommandPipeline requests resource = some (responses, rest)) :
    responses.length = requests.length
      ∧ ∀ i, i < requests.length → responses[i]? = replyAt resource.input i := by
  unfold executeRedisCommandPipeline at h
  cases hw : writeRedisPipeline requests resource with
  | none => rw [hw] at h; cases h
  | some resource' =>
      rw [hw] at h
      dsimp only at h
      have hinput : resource'.input = resource.input := by
        unfold writeRedisPipeline at hw
        cases hb : writeRedisPipelineBytes requests with
        | none => rw [hb] at hw; cases hw
        | some bytes =>
            rw [hb] at hw
            simp only [Option.some.injEq] at hw
            rw [← hw]
      rw [hinput] at h
      exact readMultipleRedisResponse_spec requests.length resource.input
        responses rest h

/-- Witness for the C4 theorem: two PING requests against a stream holding
the replies plus OK CRLF and plus PONG CRLF give the two Successes, in
stream order. -/
theorem executeRedisCommandPipeline_pairs_witness :
    ([RedisResponse.Success [43, 79, 75, 13, 10],
      RedisResponse.Success [43, 80, 79, 78, 71, 13, 10]] : List RedisResponse).length
        = ([pingRequest, pingRequest] : List RedisRequest).length
      ∧ ([RedisResponse.Success [43, 79, 75, 13, 10],
          RedisResponse.Success [43, 80, 79, 78, 71, 13, 10]] :
            List RedisResponse)[0]?
        = replyAt [43, 79, 75, 13, 10, 43, 80, 79, 78, 71, 13, 10] 0
      ∧ ([RedisResponse.Success [43, 79, 75, 13, 10],
          RedisResponse.Success [43, 80, 79, 78, 71, 13, 10]] :
            List RedisResponse)[1]?
        = replyAt [43, 79, 75, 13, 10, 43, 80, 79, 78, 71, 13, 10] 1 :=
  ⟨(executeRedisCommandPipeline_pairs [pingRequest, pingRequest]
      (Resource.mk [43, 79, 75, 13, 10, 43, 80, 79, 78, 71, 13, 10] [])
      [RedisResponse.Success [43, 79, 75, 13, 10],
       RedisResponse.Success [43, 80, 79, 78, 71, 13, 10]] [] (by decide)).1,
   (executeRedisCommandPipeline_pairs [pingRequest, pingRequest]
      (Resource.mk [43, 79, 75, 13, 10, 43, 80, 79, 78, 71, 13, 10] [])
      [RedisResponse.Success [43, 79, 75, 13, 10],
       RedisResponse.Success [43, 80, 79, 78, 71, 13, 10]] [] (by decide)).2
     0 (by decide),
   (executeRedisCommandPipeline_pairs [pingRequest, pingRequest]
      (Resource.mk [43, 79, 75, 13, 10, 43, 80, 79, 78, 71, 13, 10] [])
      [RedisResponse.Success [43, 79, 75, 13, 10],
       RedisResponse.Success [43, 80, 79, 78, 71, 13, 10]] [] (by decide)).2
     1 (by decide)⟩

/-- Both branches of the writeRedisPipeline reduce prepend the value and one
CRLF pair onto the accumulator. -/
theorem writeRedisPipelineStep_eq (accumulator value : List Nat) :
    writeRedisPipelineStep accumulator value = value ++ [13, 10] ++ accumulator := by
  unfold writeRedisPipelineStep
  rcases accumulator with _ | ⟨a, t⟩ <;> simp

/-- The reduce over the reversed encoded list emits every encoded request
followed by one CRLF pair, in the original order. -/
theorem writeRedisPipelineFold (encoded : List (List Nat)) (acc : List Nat) :
    encoded.reverse.foldl writeRedisPipelineStep acc
      = (encoded.map (fun e => e ++ [13, 10])).flatten ++ acc := by
  induction encoded generalizing acc with
  | nil => simp
  | cons e rest ih =>
      simp only [List.reverse_cons, List.foldl_append, List.foldl_cons,
        List.foldl_nil, List.map_cons, List.flatten_cons]
      rw [ih, writeRedisPipelineStep_eq]
      simp

/-- Claim C5, counterexample: for the single-request pipeline holding PING,
the writer emits the encoded request followed by a CRLF pair, which is not
the encoded request alone; the claim's byte string, which places no bytes
after the last encoded request, is therefore not what is written. -/
theorem writeRedisPipeline_trailing_crlf_counterexample :
    encodeRedisRequest pingRequest
        = some [42, 49, 13, 10, 36, 52, 13, 10, 80, 73, 78, 71, 13, 10]
      ∧ writeRedisPipelineBytes [pingRequest]
        = some ([42, 49, 13, 10, 36, 52, 13, 10, 80, 73, 78, 71, 13, 10] ++ [13, 10])
      ∧ ([42, 49, 13, 10, 36, 52, 13, 10, 80, 73, 78, 71, 13, 10] ++ [13, 10] : List Nat)
        ≠ [42, 49, 13, 10, 36, 52, 13, 10, 80, 73, 78, 71, 13, 10] := by
  refine ⟨by decide, by decide, by decide⟩

/-- Claim C5 as amended: the byte string written by the pipeline writer is
the concatenation, in order, of every encoded request followed by one CRLF
pair, the last encoded request included: encode r1, CRLF, ..., encode rn,
CRLF. -/
theorem writeRedisPipelineBytes_every_request_crlf (requests : List RedisRequest)
    (encoded : List (List Nat))
    (h : encodeAllRedisRequests requests = some encoded) :
    writeRedisPipelineBytes requests
      = some ((encoded.map (fun e => e ++ [13, 10])).flatten) := by
  unfold writeRedisPipelineBytes
  rw [h]
  dsimp only
  rw [writeRedisPipelineFold encoded []]
  simp

/-- Witness for the amended C5 theorem at the single-request PING
pipeline. -/
theorem writeRedisPipelineBytes_every_request_crlf_witness :
    encodeAllRedisRequests [pingRequest]
        = some [[42, 49, 13, 10, 36, 52, 13, 10, 80, 73, 78, 71, 13, 10]]
      ∧ writeRedisPipelineBytes [pingRequest]
        = some (([[42, 49, 13, 10, 36, 52, 13, 10, 80, 73, 78, 71, 13, 10]].map
            (fun e => e ++ [13, 10])).flatten) :=
  ⟨by decide,
   writeRedisPipelineBytes_every_request_crlf [pingRequest]
     [[42, 49, 13, 10, 36, 52, 13, 10, 80, 73, 78, 71, 13, 10]] (by decide)⟩

/- ===================== createRedisSession (C6) ===================== -/

/-- Modelled from the spec: the connection handle opened for a session by
the external Deno.connect primitive, reduced to the one observable the
claim is about; closeCount records how many times close has been invoked
on the handle. -/
structure SessionConnection where
  closeCount : Nat
deriving DecidableEq, Repr

/-- Modelled from the spec: the connect options (at minimum the port)
passed to the externally supplied connect primitive. -/
structure ConnectOptions where
  port : Nat
deriving DecidableEq, Repr

/-- Modelled from the spec: a Task over the borrowed connection, executed
exactly when the caller asks; it transforms the connection state and
yields a result or an error. -/
def SessionTask (α : Type) : Type :=
  SessionConnection → SessionConnection × Except Unit α

/-- Modelled from the spec: connectRedisClient opens a fresh handle; no
close has been invoked on it yet. -/
def connectRedisClient (_options : ConnectOptions) : SessionConnection :=
  SessionConnection.mk 0

/-- src/library/client.js line 325: disconnectRedisClient is the close
primitive of the external functional_io library, which invokes close on
the handle exactly once per execution (counted by closeCount). -/
def disconnectRedisClient : SessionTask Unit :=
  fun connection => (SessionConnection.mk (connection.closeCount + 1), Except.ok ())

/-- Modelled from the spec: runSequentially of the external functional
library runs its tasks in order; within the session it runs the body and
then the disconnect on every exit path of the body, success or failure,
and resolves to the last task's result (the client.js doc: the session
connects, executes the unary function and finally disconnects, resolving
to the Resource). -/
def runSequentially {α β : Type} (a : SessionTask α) (b : SessionTask β) :
    SessionTask β :=
  fun connection =>
    let resultOfA := a connection
    b resultOfA.1

/-- src/library/client.js lines 596-607: createRedisSession composes
connectRedisClient with the chain of the converge of runSequentially over
the caller's unary function and disconnectRedisClient. -/
def createRedisSession {α : Type} (body : SessionTask α)
    (options : ConnectOptions) : SessionConnection × Except Unit Unit :=
  runSequentially body disconnectRedisClient (connectRedisClient options)

/-- Claim C6: for every connect options and every body that does not itself
close the handle, the session invokes close on the connection exactly
once, whether the body's task succeeds or fails (the body's Except
outcome is unconstrained). -/
theorem createRedisSession_closes_once {α : Type} (options : ConnectOptions)
    (body : SessionTask α)
    (hbody : ∀ c, (body c).1.closeCount = c.closeCount) :
    (createRedisSession body options).1.closeCount = 1 := by
  unfold createRedisSession runSequentially disconnectRedisClient connectRedisClient
  simp [hbody]

/-- Witness for the C6 theorem: a body whose task fails; the session still
closes the connection exactly once. -/
theorem createRedisSession_closes_once_witness :
    (createRedisSession (fun c => (c, (Except.error () : Except Unit Unit)))
        (ConnectOptions.mk 6379)).1.closeCount = 1 :=
  createRedisSession_closes_once (ConnectOptions.mk 6379)
    (fun c => (c, Except.error ())) (fun _ => rfl)
